import Mathlib

/-!
Shallow embedding of `src/scripts/ts/PLModal.ts` (module `pl`, class `Modal`).

Modelling conventions:
* JS objects used as settings blobs become association lists `Obj` of
  string keys and `Value`s (strings or booleans); JS property assignment
  overwrites the first binding of a key or appends a fresh one, which
  matches JS object key uniqueness and insertion order.
* DOM elements are represented by the observable pieces the class touches:
  the `className` attribute as the literal string the program builds,
  a boolean "attached to document.body" flag per element, and for the
  content slot its list of child nodes.
* `className += ' modal-open'` is string concatenation.
  `className.replace(/(\s+)?modal-open/, '')` (non-global regex) removes the
  leftmost match: scanning positions left to right, a position matches when
  an (optional, greedy) whitespace run there is immediately followed by the
  literal `modal-open` — the literal contains no whitespace, so backtracking
  into a shorter run can never succeed, and the removed span is the maximal
  whitespace run plus the literal. This matches the substring anywhere, also
  in the middle of a longer class token such as `xmodal-open`. ASCII
  whitespace is modelled (JS `\s` additionally matches some Unicode spaces
  that no part of the program produces).
* Class-token observations (`classList`-style) are recovered from the
  string by splitting on whitespace.
* `PLEvent` channels are opaque instances identified by a `Nat` id handed
  out from a counter; `fire()` is modelled by incrementing a per-channel
  fire counter (the listeners themselves are external collaborators).
* `overlay.parentNode.removeChild(overlay)` throws a TypeError when the
  element is detached (`parentNode` is `null`); fallible paths therefore
  return `Option ModalState`, `none` meaning the thrown exception.
* The browser is abstracted by a predicate `styleHas : String → Bool`
  telling which style properties exist on a freshly created element, and by
  an event queue: `EvInput.signal` is one `transitionend` dispatch on the
  modal element, `EvInput.timerFire` runs the pending `setTimeout` callback.
-/

namespace PLModal

/-- A JS value as it appears in the settings object: string or boolean. -/
inductive Value
  | str (s : String)
  | bool (b : Bool)
  deriving DecidableEq, Repr

/-- A JS object (settings blob): association list of own properties,
in insertion order, keys unique. -/
abbrev Obj := List (String × Value)

/-- JS property assignment `o[k] = v`: overwrite the existing binding of
`k` (keeping its position) or append a new one. -/
def setProp : Obj → String → Value → Obj
  | [], k, v => [(k, v)]
  | (k0, v0) :: rest, k, v =>
      if k0 = k then (k, v) :: rest else (k0, v0) :: setProp rest k v

/-- JS property read `o[k]`: the value bound to `k`, or `none` (undefined). -/
def getProp : Obj → String → Option Value
  | [], _ => none
  | (k0, v0) :: rest, k => if k0 = k then some v0 else getProp rest k

/-- JS string coercion used by `'pl-modal' + ' ' + settings['className']`. -/
def valueToString : Value → String
  | Value.str s => s
  | Value.bool b => if b then "true" else "false"

/-- JS truthiness of a settings value, as tested by
`if (this._settings['avoidClose'])`. -/
def truthy : Value → Bool
  | Value.str s => s ≠ ""
  | Value.bool b => b

/-- Truthiness of `o[k]`; a missing property is `undefined`, hence falsy. -/
def settingTruthy (o : Obj) (k : String) : Bool :=
  match getProp o k with
  | some v => truthy v
  | none => false

/-- String read of `o[k]` with JS coercion; `undefined` coerces to the
string "undefined" in concatenation. -/
def getStr (o : Obj) (k : String) : String :=
  match getProp o k with
  | some v => valueToString v
  | none => "undefined"

/-- `Modal.extendsDefaults(source, settings)`: copies every own property of
`settings` into `source` (the `for..in` + `hasOwnProperty` loop) and returns
the mutated `source`. -/
def extendsDefaults (source settings : Obj) : Obj :=
  settings.foldl (fun src p => setProp src p.1 p.2) source

/-- The `defaults` object built inside the constructor. -/
def defaults : Obj := [("className", Value.str ""), ("avoidClose", Value.bool true)]

/-- The lookup table `transEndEventNames` of `Modal.transitionSelect`,
in the insertion order that `for..in` iterates. -/
def transEndEventNames : List (String × String) :=
  [("WebkitTransition", "webkitTransitionEnd"),
   ("MozTransition", "transitionend"),
   ("OTransition", "otransitionend"),
   ("transition", "transitionend")]

/-- `Modal.transitionSelect()`: probes `el.style[name] !== undefined` on a
throwaway element (abstracted by `styleHas`) for each key of
`transEndEventNames` in order and returns the mapped event name of the
first hit; falls off the end (returns `undefined`, i.e. `none`) otherwise. -/
def transitionSelect (styleHas : String → Bool) : Option String :=
  (transEndEventNames.find? (fun p => styleHas p.1)).map (fun p => p.2)

/-- A DOM node inside the content slot: a text node or an element
(identified by an id, it is externally supplied). -/
inductive Node
  | text (s : String)
  | elem (id : Nat)
  deriving DecidableEq, Repr

/-- Argument to `setContent`: `typeof content === "string"` or an element. -/
inductive ContentArg
  | str (s : String)
  | elem (id : Nat)
  deriving DecidableEq, Repr

/-- Event-loop inputs: one `transitionend` dispatch on the modal element,
or the firing of the pending 50ms `setTimeout` callback. -/
inductive EvInput
  | signal
  | timerFire
  deriving DecidableEq, Repr

/-- Observable state of a `Modal` instance. -/
structure ModalState where
  overlayClassName : String
  modalClassName : String
  overlayAttached : Bool
  modalAttached : Bool
  contentChildren : List Node
  closeButton : Bool
  escListener : Bool
  closeClickListener : Bool
  transitionListenerAttached : Bool
  pendingReattach : Option Nat
  isOpen : Bool
  modalOpenChan : Option Nat
  modalCloseChan : Option Nat
  nextChanId : Nat
  openFires : Nat
  closeFires : Nat
  settings : Obj
  transitionend : Option String
  deriving DecidableEq, Repr

/-- ASCII whitespace as matched by the regex class `\s` (space, tab, LF,
VT, FF, CR); the Unicode spaces `\s` also matches are not modelled, and no
string the program itself builds contains them. -/
def jsWs (c : Char) : Bool :=
  c = ' ' || c = '\t' || c = '\n' || c = '\x0b' || c = '\x0c' || c = '\r'

/-- Collects the maximal whitespace-free runs of a character list,
accumulating the current run in reverse in `acc`. -/
def tokenizeChars : List Char → List Char → List String
  | [], acc => if acc.isEmpty then [] else [String.mk acc.reverse]
  | c :: cs, acc =>
      if jsWs c then
        if acc.isEmpty then tokenizeChars cs [] else String.mk acc.reverse :: tokenizeChars cs []
      else tokenizeChars cs (c :: acc)

/-- Splits a `className` string into its whitespace-separated class tokens
(the element's `classList` view of the attribute). -/
def classTokens (s : String) : List String :=
  tokenizeChars s.toList []

/-- `buildOut()`: creates the overlay (`'pl-modal-overlay'`), the modal
(`'pl-modal' + ' ' + settings['className']`), the empty content slot, and —
only when `settings['avoidClose']` is truthy — the close button. -/
def buildOut (st : ModalState) : ModalState :=
  { st with
    overlayClassName := "pl-modal-overlay"
    modalClassName := "pl-modal" ++ " " ++ getStr st.settings "className"
    contentChildren := []
    closeButton := settingTruthy st.settings "avoidClose" }

/-- `initializeEvents()`: when `settings['avoidClose']` is truthy, registers
the document keydown (escape) listener and the close-button click listener;
always registers `toggleTransitionend` on the modal element. -/
def initializeEvents (st : ModalState) : ModalState :=
  let avoid := settingTruthy st.settings "avoidClose"
  { st with
    escListener := avoid
    closeClickListener := avoid
    transitionListenerAttached := true }

/-- The constructor: merges `settings || {}` over the defaults, runs the
transition-name probe, then `buildOut()` and `initializeEvents()`. -/
def mkModal (styleHas : String → Bool) (settings : Option Obj) : ModalState :=
  let s := extendsDefaults defaults (settings.getD [])
  initializeEvents (buildOut
    { overlayClassName := ""
      modalClassName := ""
      overlayAttached := false
      modalAttached := false
      contentChildren := []
      closeButton := false
      escListener := false
      closeClickListener := false
      transitionListenerAttached := false
      pendingReattach := none
      isOpen := false
      modalOpenChan := none
      modalCloseChan := none
      nextChanId := 0
      openFires := 0
      closeFires := 0
      settings := s
      transitionend := transitionSelect styleHas })

/-- `onModalOpen()`: fires the open channel if it exists, then sets
`_isOpen = true`. -/
def onModalOpen (st : ModalState) : ModalState :=
  let st1 := if st.modalOpenChan.isSome then { st with openFires := st.openFires + 1 } else st
  { st1 with isOpen := true }

/-- `removeFromDom()`: `overlay.parentNode.removeChild(overlay)` then
`modal.parentNode.removeChild(modal)`; each dereferences `parentNode`
without a null check, so a detached element throws (`none`). -/
def removeFromDom (st : ModalState) : Option ModalState :=
  if st.overlayAttached then
    let st1 := { st with overlayAttached := false }
    if st1.modalAttached then some { st1 with modalAttached := false } else none
  else none

/-- `onModalClose()`: fires the close channel if it exists, then
`removeFromDom()`, then sets `_isOpen = false`. -/
def onModalClose (st : ModalState) : Option ModalState :=
  let st1 := if st.modalCloseChan.isSome then { st with closeFires := st.closeFires + 1 } else st
  (removeFromDom st1).map (fun st2 => { st2 with isOpen := false })

/-- The fixed delay of the `setTimeout` that re-attaches the listener. -/
def reattachDelayMs : Nat := 50

/-- `toggleTransitionend(ev)` (handler body): picks the function from the
prior `_isOpen`, removes the `transitionend` listener, calls the function,
then schedules the listener re-attachment after `reattachDelayMs`. -/
def toggleTransitionend (st : ModalState) : Option ModalState :=
  let st1 := { st with transitionListenerAttached := false }
  let r := if st.isOpen then onModalClose st1 else some (onModalOpen st1)
  r.map (fun st2 => { st2 with pendingReattach := some reattachDelayMs })

/-- One `transitionend` event dispatched on the modal element: the handler
runs only while it is attached. -/
def dispatchTransitionend (st : ModalState) : Option ModalState :=
  if st.transitionListenerAttached then toggleTransitionend st else some st

/-- The pending `setTimeout` callback firing: re-attaches the listener. -/
def fireReattachTimer (st : ModalState) : ModalState :=
  match st.pendingReattach with
  | some _ => { st with transitionListenerAttached := true, pendingReattach := none }
  | none => st

/-- One event-loop step. -/
def step (st : ModalState) : EvInput → Option ModalState
  | EvInput.signal => dispatchTransitionend st
  | EvInput.timerFire => some (fireReattachTimer st)

/-- Runs a sequence of event-loop inputs; `none` once an exception escapes. -/
def runEvents (st : ModalState) (evs : List EvInput) : Option ModalState :=
  evs.foldlM step st

/-- `open()`: no-op when `_isOpen`; otherwise appends overlay and modal to
`document.body`, forces a reflow (no state effect), and appends
`' modal-open'` to both `className`s. -/
def openModal (st : ModalState) : ModalState :=
  if st.isOpen then st
  else
    { st with
      overlayAttached := true
      modalAttached := true
      overlayClassName := st.overlayClassName ++ " modal-open"
      modalClassName := st.modalClassName ++ " modal-open" }

/-- The characters of the regex literal `modal-open`. -/
def modalOpenLit : List Char := "modal-open".toList

/-- Whether the regex `(\s+)?lit` matches at the current position: the
greedy whitespace run here must be immediately followed by `lit` (the
literal starts with a non-whitespace character, so backtracking into a
shorter run can never succeed). Returns the remainder after the match. -/
def matchWsLitAt (lit : List Char) (cs : List Char) : Option (List Char) :=
  let rest := cs.dropWhile jsWs
  if lit.isPrefixOf rest then some (rest.drop lit.length) else none

/-- Removes the leftmost match of `(\s+)?lit`, scanning positions left to
right; `none` when the regex matches nowhere (JS `replace` then returns the
string unchanged). -/
def replaceFirstAux (lit : List Char) : List Char → Option (List Char)
  | [] => none
  | c :: cs =>
      match matchWsLitAt lit (c :: cs) with
      | some rest => some rest
      | none =>
          match replaceFirstAux lit cs with
          | some rest => some (c :: rest)
          | none => none

/-- `className.replace(/(\s+)?modal-open/, '')`: removes the leftmost
substring match — anywhere, also in the middle of a longer token. -/
def replaceFirstModalOpen (s : String) : String :=
  match replaceFirstAux modalOpenLit s.toList with
  | some cs => String.mk cs
  | none => s

/-- Whether `lit` occurs as a contiguous substring of `cs`. -/
def containsLit (lit : List Char) : List Char → Bool
  | [] => lit.isEmpty
  | c :: cs => lit.isPrefixOf (c :: cs) || containsLit lit cs

/-- Whether the string contains `modal-open` as a substring (the condition
under which the regex replace behaves unexpectedly on user class names). -/
def containsModalOpen (s : String) : Bool :=
  containsLit modalOpenLit s.toList

/-- The character list without its trailing whitespace run. -/
def removeTrailing (cs : List Char) : List Char :=
  (cs.reverse.dropWhile jsWs).reverse

/-- `close()`: no-op when not `_isOpen`; otherwise replaces the first regex
match of `(\s+)?modal-open` in both `className`s with the empty string.
Does not detach and does not touch `_isOpen`. -/
def close (st : ModalState) : ModalState :=
  if st.isOpen then
    { st with
      overlayClassName := replaceFirstModalOpen st.overlayClassName
      modalClassName := replaceFirstModalOpen st.modalClassName }
  else st

/-- The document keydown listener registered when `avoidClose` is truthy:
calls `close()` on keyCode 27. Without the listener the key does nothing. -/
def keydown (st : ModalState) (keyCode : Nat) : ModalState :=
  if st.escListener then (if keyCode = 27 then close st else st) else st

/-- The close-button click listener registered when `avoidClose` is truthy. -/
def clickCloseButton (st : ModalState) : ModalState :=
  if st.closeClickListener then close st else st

/-- The `modalOpen` getter: lazily constructs the channel on first access,
returns the stored instance afterwards. -/
def modalOpen (st : ModalState) : Nat × ModalState :=
  match st.modalOpenChan with
  | some c => (c, st)
  | none =>
      (st.nextChanId,
       { st with modalOpenChan := some st.nextChanId, nextChanId := st.nextChanId + 1 })

/-- The `modalClose` getter: lazily constructs the channel on first access,
returns the stored instance afterwards. -/
def modalClose (st : ModalState) : Nat × ModalState :=
  match st.modalCloseChan with
  | some c => (c, st)
  | none =>
      (st.nextChanId,
       { st with modalCloseChan := some st.nextChanId, nextChanId := st.nextChanId + 1 })

/-- `setContent(content)`: empties the slot (`innerHTML = ''`), then appends
a text node for a string argument, the element itself otherwise. -/
def setContent (st : ModalState) (content : ContentArg) : ModalState :=
  { st with
    contentChildren :=
      match content with
      | ContentArg.str s => [Node.text s]
      | ContentArg.elem i => [Node.elem i] }

/-- A browser where only the standard `transition` style property exists. -/
def modernStyle : String → Bool := fun p => p = "transition"

/-- A state whose handshake has completed an open: the constructor state
with the `_isOpen` flag set (as `onModalOpen` leaves it). -/
def stOpenTrue : ModalState := { mkModal modernStyle none with isOpen := true }

/-- The state right after `modalOpen` has been accessed once and `open()`
has been called: listener attached, open channel registered, not yet open. -/
def openReadyState : ModalState := openModal (modalOpen (mkModal modernStyle none)).2

/-! ## Helper lemmas -/

theorem getProp_setProp_self (o : Obj) (k : String) (v : Value) :
    getProp (setProp o k v) k = some v := by
  induction o with
  | nil => simp [setProp, getProp]
  | cons p rest ih =>
      obtain ⟨k0, v0⟩ := p
      by_cases h : k0 = k
      · simp [setProp, h, getProp]
      · simp [setProp, h, getProp, ih]

theorem getProp_setProp_ne (o : Obj) (k' k : String) (v : Value) (h : k' ≠ k) :
    getProp (setProp o k' v) k = getProp o k := by
  induction o with
  | nil => simp [setProp, getProp, h]
  | cons p rest ih =>
      obtain ⟨k0, v0⟩ := p
      by_cases h0 : k0 = k'
      · subst h0; simp [setProp, getProp, h]
      · simp [setProp, h0, getProp, ih]

theorem extendsDefaults_nil (src : Obj) : extendsDefaults src [] = src := rfl

theorem extendsDefaults_cons (src : Obj) (k : String) (v : Value) (rest : Obj) :
    extendsDefaults src ((k, v) :: rest) = extendsDefaults (setProp src k v) rest := rfl

theorem getProp_extendsDefaults_notMem (s : Obj) :
    ∀ (src : Obj) (k : String), k ∉ s.map Prod.fst →
      getProp (extendsDefaults src s) k = getProp src k := by
  induction s with
  | nil => intro src k _; rfl
  | cons p rest ih =>
      intro src k hk
      obtain ⟨k0, v0⟩ := p
      simp only [List.map_cons, List.mem_cons] at hk
      push_neg at hk
      rw [extendsDefaults_cons, ih (setProp src k0 v0) k hk.2,
        getProp_setProp_ne src k0 k v0 (fun h => hk.1 h.symm)]

theorem getProp_extendsDefaults_mem (s : Obj) :
    ∀ (src : Obj) (k : String) (v : Value), (s.map Prod.fst).Nodup → (k, v) ∈ s →
      getProp (extendsDefaults src s) k = some v := by
  induction s with
  | nil => intro src k v _ h; cases h
  | cons p rest ih =>
      intro src k v hnd hmem
      obtain ⟨k0, v0⟩ := p
      simp only [List.map_cons, List.nodup_cons] at hnd
      rcases List.mem_cons.mp hmem with heq | hmem'
      · cases heq
        rw [extendsDefaults_cons,
          getProp_extendsDefaults_notMem rest (setProp src k v) k hnd.1,
          getProp_setProp_self]
      · exact ih (setProp src k0 v0) k v hnd.2 hmem'

/-! ## Claim theorems -/

/-- Claim C10: `extendsDefaults` copies every own property of the settings
object into the defaults (overwriting `className` and `avoidClose`,
retaining unrecognized keys) and returns the mutated defaults object, so a
key absent from the settings keeps its default; the constructor substitutes
an empty object for a null or undefined settings argument, so construction
with no meaningful settings yields `className` "" and `avoidClose` true. -/
theorem claim_C10 (settings : Obj) (hnd : (settings.map Prod.fst).Nodup) :
    (∀ k v, (k, v) ∈ settings →
        getProp (extendsDefaults defaults settings) k = some v) ∧
    (∀ k, k ∉ settings.map Prod.fst →
        getProp (extendsDefaults defaults settings) k = getProp defaults k) ∧
    (∀ styleHas, (mkModal styleHas none).settings = defaults) ∧
    getProp (mkModal modernStyle none).settings "className" = some (Value.str "") ∧
    getProp (mkModal modernStyle none).settings "avoidClose" = some (Value.bool true) := by
  refine ⟨fun k v hm => getProp_extendsDefaults_mem settings defaults k v hnd hm,
    fun k hk => getProp_extendsDefaults_notMem settings defaults k hk,
    fun styleHas => rfl, by decide, by decide⟩

theorem claim_C10_witness :
    getProp (extendsDefaults defaults
        [("className", Value.str "x"), ("avoidClose", Value.bool false),
         ("zzz", Value.str "q")]) "zzz" = some (Value.str "q") ∧
    getProp (extendsDefaults defaults
        [("className", Value.str "x"), ("avoidClose", Value.bool false),
         ("zzz", Value.str "q")]) "avoidClose" = some (Value.bool false) ∧
    getProp (mkModal modernStyle none).settings "className" = some (Value.str "") := by
  refine ⟨(claim_C10 _ (by decide)).1 "zzz" (Value.str "q") (by decide),
    (claim_C10 _ (by decide)).1 "avoidClose" (Value.bool false) (by decide),
    (claim_C10 [] (by decide)).2.2.2.1⟩

/-- Claim C8: the `modalOpen` and `modalClose` accessors are lazy and
idempotent: a first access (channel field still empty) constructs a fresh
channel and stores it; any further access returns the very same instance
and leaves the state unchanged. -/
theorem claim_C8 (st : ModalState) :
    (modalOpen (modalOpen st).2 = ((modalOpen st).1, (modalOpen st).2)) ∧
    ((modalOpen st).2.modalOpenChan = some (modalOpen st).1) ∧
    (st.modalOpenChan = none →
      (modalOpen st).1 = st.nextChanId ∧ (modalOpen st).2.nextChanId = st.nextChanId + 1) ∧
    (modalClose (modalClose st).2 = ((modalClose st).1, (modalClose st).2)) ∧
    ((modalClose st).2.modalCloseChan = some (modalClose st).1) ∧
    (st.modalCloseChan = none →
      (modalClose st).1 = st.nextChanId ∧ (modalClose st).2.nextChanId = st.nextChanId + 1) := by
  cases h1 : st.modalOpenChan <;> cases h2 : st.modalCloseChan <;>
    simp [modalOpen, modalClose, h1, h2]

theorem claim_C8_witness :
    (modalOpen (mkModal modernStyle none)).1 = (mkModal modernStyle none).nextChanId ∧
    (modalOpen (mkModal modernStyle none)).2.nextChanId =
      (mkModal modernStyle none).nextChanId + 1 :=
  (claim_C8 (mkModal modernStyle none)).2.2.1 rfl

/-- Claim C5: for every prior content of the slot, `setContent` with a
string leaves exactly one text node equal to that string, and `setContent`
with an element followed by `setContent` with a string leaves only the text
node; the prior content is fully discarded in both cases. -/
theorem claim_C5 (st : ModalState) (i : Nat) (s : String) :
    (setContent st (ContentArg.str s)).contentChildren = [Node.text s] ∧
    (setContent (setContent st (ContentArg.elem i)) (ContentArg.str s)).contentChildren
      = [Node.text s] :=
  ⟨rfl, rfl⟩

/-- Claim C7: `transitionSelect` returns the mapped completion-event name
of the first probed style property that exists on the throwaway element,
iterating WebkitTransition, MozTransition, OTransition, transition in that
order, and returns no value (`none`) when none of them exist. -/
theorem claim_C7 (styleHas : String → Bool) :
    transitionSelect styleHas =
      if styleHas "WebkitTransition" then some "webkitTransitionEnd"
      else if styleHas "MozTransition" then some "transitionend"
      else if styleHas "OTransition" then some "otransitionend"
      else if styleHas "transition" then some "transitionend"
      else none := by
  cases h1 : styleHas "WebkitTransition" <;> cases h2 : styleHas "MozTransition" <;>
    cases h3 : styleHas "OTransition" <;> cases h4 : styleHas "transition" <;>
      simp [transitionSelect, transEndEventNames, List.find?, h1, h2, h3, h4]

theorem openModal_false_fields (st : ModalState) (h : st.isOpen = false) :
    (openModal st).overlayClassName = st.overlayClassName ++ " modal-open" ∧
    (openModal st).modalClassName = st.modalClassName ++ " modal-open" ∧
    (openModal st).isOpen = false := by
  simp [openModal, h]

theorem tokenizeChars_append_space (rest : List Char) :
    ∀ (cs acc : List Char),
      tokenizeChars (cs ++ ' ' :: rest) acc = tokenizeChars cs acc ++ tokenizeChars rest [] := by
  have hws : jsWs ' ' = true := by decide
  intro cs
  induction cs with
  | nil =>
      intro acc
      cases hacc : acc.isEmpty <;> simp [tokenizeChars, hws, hacc]
  | cons c cs ih =>
      intro acc
      cases hc : jsWs c
      · simp [tokenizeChars, hc, ih]
      · cases hacc : acc.isEmpty <;> simp [tokenizeChars, hc, hacc, ih]

theorem classTokens_append_modal_open (s : String) :
    classTokens (s ++ " modal-open") = classTokens s ++ ["modal-open"] := by
  have hlit : " modal-open".data = ' ' :: "modal-open".data := by decide
  have htok : tokenizeChars "modal-open".data [] = ["modal-open"] := by decide
  simp only [classTokens, String.toList, String.data_append, hlit]
  rw [tokenizeChars_append_space, htok]

theorem containsLit_of_suffix (lit : List Char) :
    ∀ (cs cs' : List Char), cs' <:+ cs → lit.isPrefixOf cs' = true →
      containsLit lit cs = true := by
  intro cs
  induction cs with
  | nil =>
      intro cs' hs hp
      have h0 : cs' = [] := List.suffix_nil.mp hs
      subst h0
      cases lit with
      | nil => simp [containsLit]
      | cons l ls => simp [List.isPrefixOf] at hp
  | cons c cs ih =>
      intro cs' hs hp
      rcases List.suffix_cons_iff.mp hs with h | h
      · subst h; simp [containsLit, hp]
      · simp [containsLit, ih cs' h hp]

theorem infix_extend (x pre : List Char) (c : Char) (cs : List Char)
    (h : x <:+: cs) : x <:+: pre ++ c :: cs := by
  obtain ⟨s, t, hst⟩ := h
  exact ⟨pre ++ c :: s, t, by rw [← hst]; simp⟩

theorem mem_tokenizeChars_infix :
    ∀ (cs acc : List Char) (t : String), t ∈ tokenizeChars cs acc →
      t.toList <:+: acc.reverse ++ cs := by
  intro cs
  induction cs with
  | nil =>
      intro acc t ht
      cases hacc : acc.isEmpty
      · simp [tokenizeChars, hacc] at ht
        subst ht
        exact ⟨[], [], by simp⟩
      · simp [tokenizeChars, hacc] at ht
  | cons c cs ih =>
      intro acc t ht
      cases hc : jsWs c
      · simp only [tokenizeChars, hc, if_false, Bool.false_eq_true] at ht
        have h2 := ih (c :: acc) t ht
        simpa [List.reverse_cons, List.append_assoc] using h2
      · cases hacc : acc.isEmpty
        · simp only [tokenizeChars, hc, hacc, if_true, if_false, Bool.false_eq_true,
            List.mem_cons] at ht
          rcases ht with h1 | h1
          · subst h1
            refine ⟨[], c :: cs, by simp [String.toList]⟩
          · exact infix_extend _ _ _ _ (by simpa using ih [] t h1)
        · simp only [tokenizeChars, hc, hacc, if_true] at ht
          exact infix_extend _ _ _ _ (by simpa using ih [] t ht)

theorem modal_open_notMem_classTokens (s : String) (h : containsModalOpen s = false) :
    "modal-open" ∉ classTokens s := by
  intro hmem
  have hinf := mem_tokenizeChars_infix s.toList [] "modal-open" hmem
  simp only [List.reverse_nil, List.nil_append] at hinf
  obtain ⟨pre, suf, hps⟩ := hinf
  have hsuffix : modalOpenLit ++ suf <:+ s.toList :=
    ⟨pre, by rw [← hps]; simp [modalOpenLit, List.append_assoc]⟩
  have hp : modalOpenLit.isPrefixOf (modalOpenLit ++ suf) = true :=
    List.isPrefixOf_iff_prefix.mpr (List.prefix_append _ _)
  have hcl := containsLit_of_suffix modalOpenLit s.toList _ hsuffix hp
  rw [containsModalOpen] at h
  rw [h] at hcl
  cases hcl

theorem tokenizeChars_all_ws (ws : List Char) (hws : ws.all jsWs = true) :
    ∀ acc, tokenizeChars ws acc = tokenizeChars [] acc := by
  induction ws with
  | nil => intro acc; rfl
  | cons w ws ih =>
      intro acc
      rw [List.all_cons, Bool.and_eq_true] at hws
      cases hacc : acc.isEmpty <;>
        simp [tokenizeChars, hws.1, hacc, ih hws.2]

theorem tokenizeChars_append_all_ws (ws : List Char) (hws : ws.all jsWs = true) :
    ∀ (cs acc : List Char), tokenizeChars (cs ++ ws) acc = tokenizeChars cs acc := by
  intro cs
  induction cs with
  | nil =>
      intro acc
      simpa using tokenizeChars_all_ws ws hws acc
  | cons c cs ih =>
      intro acc
      cases hc : jsWs c
      · simp [tokenizeChars, hc, ih]
      · cases hacc : acc.isEmpty <;> simp [tokenizeChars, hc, hacc, ih]

theorem tokenizeChars_removeTrailing (cs : List Char) :
    tokenizeChars (removeTrailing cs) [] = tokenizeChars cs [] := by
  have hdecomp : cs = removeTrailing cs ++ (cs.reverse.takeWhile jsWs).reverse := by
    have h := List.takeWhile_append_dropWhile (p := jsWs) (l := cs.reverse)
    calc cs = cs.reverse.reverse := (List.reverse_reverse cs).symm
    _ = (cs.reverse.takeWhile jsWs ++ cs.reverse.dropWhile jsWs).reverse := by rw [h]
    _ = removeTrailing cs ++ (cs.reverse.takeWhile jsWs).reverse := by
        rw [List.reverse_append]; rfl
  have hws : ((cs.reverse.takeWhile jsWs).reverse).all jsWs = true := by
    rw [List.all_reverse, List.all_eq_true]
    intro x hx
    exact List.mem_takeWhile_imp hx
  conv_rhs => rw [hdecomp]
  rw [tokenizeChars_append_all_ws _ hws]

theorem isPrefixOf_append_space (lit x rest : List Char)
    (h : lit.isPrefixOf (x ++ ' ' :: rest) = true) :
    lit <+: x ∨ ' ' ∈ lit := by
  rw [List.isPrefixOf_iff_prefix] at h
  by_cases hl : lit.length ≤ x.length
  · exact Or.inl (List.prefix_of_prefix_length_le h (List.prefix_append x (' ' :: rest)) hl)
  · right
    push_neg at hl
    have hx : x <+: lit :=
      List.prefix_of_prefix_length_le (List.prefix_append x (' ' :: rest)) h (Nat.le_of_lt hl)
    obtain ⟨r, hr⟩ := hx
    obtain ⟨t, ht⟩ := h
    cases r with
    | nil =>
        exfalso
        have hlen : lit.length = x.length := by rw [← hr]; simp
        omega
    | cons r0 rs =>
        have h2 : x ++ (r0 :: rs ++ t) = x ++ ' ' :: rest := by
          rw [← List.append_assoc, hr, ht]
        have h3 : r0 :: (rs ++ t) = ' ' :: rest := by
          simpa using List.append_cancel_left h2
        have hr0 : r0 = ' ' := by
          injection h3
        rw [← hr, hr0]
        simp

theorem dropWhile_not_all_ws (cs : List Char) (h : cs.all jsWs = false) :
    (cs.dropWhile jsWs).isEmpty = false := by
  induction cs with
  | nil => simp at h
  | cons c cs ih =>
      rw [List.all_cons] at h
      cases hc : jsWs c
      · simp [List.dropWhile_cons, hc]
      · rw [hc] at h
        simp only [Bool.true_and] at h
        simp [List.dropWhile_cons, hc, ih h]

theorem dropWhile_all_ws (cs : List Char) (h : cs.all jsWs = true) :
    cs.dropWhile jsWs = [] := by
  induction cs with
  | nil => rfl
  | cons c cs ih =>
      rw [List.all_cons, Bool.and_eq_true] at h
      simp [List.dropWhile_cons, h.1, ih h.2]

theorem removeTrailing_cons (c : Char) (cs : List Char) :
    removeTrailing (c :: cs) =
      if jsWs c && cs.all jsWs then [] else c :: removeTrailing cs := by
  rw [removeTrailing, List.reverse_cons, List.dropWhile_append]
  cases hall : cs.all jsWs
  · have hne := dropWhile_not_all_ws cs.reverse (by rwa [List.all_reverse])
    simp only [hne, Bool.false_eq_true, if_false, Bool.and_false]
    rw [List.reverse_append]
    rfl
  · have hnil := dropWhile_all_ws cs.reverse (by rwa [List.all_reverse])
    simp only [hnil, List.isEmpty_nil, if_true, Bool.and_true]
    cases hc : jsWs c
    · simp only [List.dropWhile_cons, hc, Bool.false_eq_true, if_false]
      rw [removeTrailing, hnil]
      simp
    · simp [List.dropWhile_cons, hc]

theorem matchWsLitAt_boundary (cs : List Char)
    (h : containsLit modalOpenLit cs = false) :
    matchWsLitAt modalOpenLit (cs ++ ' ' :: modalOpenLit) =
      if cs.all jsWs then some [] else none := by
  cases hall : cs.all jsWs
  · have hne := dropWhile_not_all_ws cs hall
    have hpre : modalOpenLit.isPrefixOf
        (cs.dropWhile jsWs ++ ' ' :: modalOpenLit) = false := by
      cases hp : modalOpenLit.isPrefixOf (cs.dropWhile jsWs ++ ' ' :: modalOpenLit)
      · rfl
      · exfalso
        rcases isPrefixOf_append_space _ _ _ hp with hpref | hmem
        · have hsuffix : cs.dropWhile jsWs <:+ cs := List.dropWhile_suffix jsWs
          have hcl := containsLit_of_suffix modalOpenLit cs _ hsuffix
            (List.isPrefixOf_iff_prefix.mpr hpref)
          rw [h] at hcl
          cases hcl
        · exact absurd hmem (by decide)
    simp [matchWsLitAt, List.dropWhile_append, hne, hpre]
  · have hdrop : (cs ++ ' ' :: modalOpenLit).dropWhile jsWs = modalOpenLit := by
      rw [List.dropWhile_append_of_pos (fun a ha => List.all_eq_true.mp hall a ha)]
      decide
    have hp : modalOpenLit.isPrefixOf modalOpenLit = true := by decide
    have hd : modalOpenLit.drop modalOpenLit.length = [] := by decide
    simp [matchWsLitAt, hdrop, hp, hd]

theorem replaceFirstAux_boundary :
    ∀ cs : List Char, containsLit modalOpenLit cs = false →
      replaceFirstAux modalOpenLit (cs ++ ' ' :: modalOpenLit) =
        some (removeTrailing cs) := by
  intro cs
  induction cs with
  | nil => intro _; decide
  | cons c cs ih =>
      intro h
      have hc' : containsLit modalOpenLit cs = false := by
        rw [containsLit, Bool.or_eq_false_iff] at h
        exact h.2
      have hmatch := matchWsLitAt_boundary (c :: cs) h
      rw [removeTrailing_cons, List.cons_append]
      rw [List.cons_append] at hmatch
      cases hall : (c :: cs).all jsWs
      · rw [hall] at hmatch
        simp only [Bool.false_eq_true, if_false] at hmatch
        rw [List.all_cons] at hall
        simp only [replaceFirstAux]
        rw [hmatch, ih hc']
        simp [hall]
      · rw [hall] at hmatch
        simp only [if_true] at hmatch
        rw [List.all_cons] at hall
        simp only [replaceFirstAux]
        rw [hmatch]
        simp [hall]

theorem replaceFirstModalOpen_boundary (s : String) (h : containsModalOpen s = false) :
    replaceFirstModalOpen (s ++ " modal-open") = String.mk (removeTrailing s.toList) := by
  have hlist : (s ++ " modal-open").toList = s.toList ++ ' ' :: modalOpenLit := by
    simp only [String.toList, String.data_append]
    exact congrArg (fun l => s.data ++ l)
      (by decide : " modal-open".data = ' ' :: modalOpenLit)
  rw [containsModalOpen] at h
  rw [replaceFirstModalOpen, hlist, replaceFirstAux_boundary s.toList h]

theorem count_modal_open_boundary (s : String) (h : containsModalOpen s = false) :
    (classTokens (s ++ " modal-open")).count "modal-open" = 1 ∧
    (classTokens (replaceFirstModalOpen (s ++ " modal-open"))).count "modal-open" = 0 := by
  have h0 : (classTokens s).count "modal-open" = 0 :=
    List.count_eq_zero.mpr (modal_open_notMem_classTokens s h)
  constructor
  · rw [classTokens_append_modal_open, List.count_append, h0]
    rfl
  · rw [replaceFirstModalOpen_boundary s h]
    have : classTokens (String.mk (removeTrailing s.toList)) = classTokens s := by
      simp only [classTokens, String.toList]
      exact tokenizeChars_removeTrailing s.toList
    rw [this, h0]

/-- Claim C4 (amended): `close()` while `_isOpen` leaves both elements
attached and `_isOpen` untouched, and replaces the first regex match of
`(\s+)?modal-open` in each `className`: whenever each `className` is its
pre-open value — one not containing `modal-open` as a substring — extended
by the `' modal-open'` that `open()` appended (true of the overlay and of
any configured class name not embedding `modal-open`), this removes the
open class completely; `close()` while not `_isOpen` is a silent no-op that
changes no state (and, being total, raises no error). -/
theorem claim_C4 (st : ModalState) :
    ((close st).overlayAttached = st.overlayAttached ∧
     (close st).modalAttached = st.modalAttached ∧
     (close st).isOpen = st.isOpen) ∧
    (st.isOpen = false → close st = st) ∧
    (st.isOpen = true →
      ∀ sov smo : String,
        st.overlayClassName = sov ++ " modal-open" →
        st.modalClassName = smo ++ " modal-open" →
        containsModalOpen sov = false →
        containsModalOpen smo = false →
        (classTokens st.overlayClassName).count "modal-open" = 1 ∧
        (classTokens st.modalClassName).count "modal-open" = 1 ∧
        (classTokens (close st).overlayClassName).count "modal-open" = 0 ∧
        (classTokens (close st).modalClassName).count "modal-open" = 0) := by
  refine ⟨?_, ?_, ?_⟩
  · cases h : st.isOpen <;> simp [close, h]
  · intro h; simp [close, h]
  · intro h sov smo hov hmo hcov hcmo
    have hclo : (close st).overlayClassName = replaceFirstModalOpen st.overlayClassName := by
      simp [close, h]
    have hclm : (close st).modalClassName = replaceFirstModalOpen st.modalClassName := by
      simp [close, h]
    obtain ⟨hb1, ha1⟩ := count_modal_open_boundary sov hcov
    obtain ⟨hb2, ha2⟩ := count_modal_open_boundary smo hcmo
    refine ⟨?_, ?_, ?_, ?_⟩
    · rw [hov]; exact hb1
    · rw [hmo]; exact hb2
    · rw [hclo, hov]; exact ha1
    · rw [hclm, hmo]; exact ha2

/-- A state with the flag set and both elements attached, as left by a
completed open handshake on a default-constructed modal. -/
def openedState : ModalState := { openModal (mkModal modernStyle none) with isOpen := true }

/-- The flag-set opened state of a modal constructed with
`{className: "xmodal-open"}`, whose configured class embeds `modal-open`. -/
def openedEmbedded : ModalState :=
  { openModal (mkModal modernStyle (some [("className", Value.str "xmodal-open")]))
      with isOpen := true }

theorem claim_C4_counterexample :
    openedEmbedded.isOpen = true ∧
    (classTokens openedEmbedded.modalClassName).count "modal-open" = 1 ∧
    (classTokens (close openedEmbedded).modalClassName).count "modal-open" = 1 ∧
    (close openedEmbedded).modalClassName = "pl-modal x modal-open" :=
  ⟨rfl, by decide, by decide, by decide⟩

theorem claim_C4_witness :
    (close openedState).overlayAttached = openedState.overlayAttached ∧
    close (mkModal modernStyle none) = mkModal modernStyle none ∧
    (classTokens (close openedState).overlayClassName).count "modal-open" = 0 ∧
    (classTokens (close openedState).modalClassName).count "modal-open" = 0 :=
  have h := (claim_C4 openedState).2.2 rfl "pl-modal-overlay" "pl-modal "
    (by decide) (by decide) (by decide) (by decide)
  ⟨(claim_C4 openedState).1.1, (claim_C4 (mkModal modernStyle none)).2.1 rfl,
    h.2.2.1, h.2.2.2⟩

theorem claim_C2_counterexample :
    openModal (openModal (mkModal modernStyle none)) ≠ openModal (mkModal modernStyle none) ∧
    (classTokens (openModal (openModal
      (mkModal modernStyle none))).overlayClassName).count "modal-open" = 2 ∧
    (classTokens (openModal (openModal
      (mkModal modernStyle none))).modalClassName).count "modal-open" = 2 := by
  exact ⟨by decide, by decide, by decide⟩

/-- Claim C2 (amended): `open()` is a no-op only once `_isOpen` is true,
which happens only after a transition-completion signal is processed; with
no intervening completion signal the guard never trips, so each of n
`open()` calls takes effect and the class lists gain the open class once
per call (n copies after n calls), not exactly once. -/
theorem claim_C2 :
    (∀ st : ModalState, st.isOpen = true → openModal st = st) ∧
    (∀ n : Nat,
      (classTokens (openModal^[n]
        (mkModal modernStyle none)).overlayClassName).count "modal-open" = n ∧
      (classTokens (openModal^[n]
        (mkModal modernStyle none)).modalClassName).count "modal-open" = n ∧
      (openModal^[n] (mkModal modernStyle none)).isOpen = false) := by
  constructor
  · intro st h; simp [openModal, h]
  · intro n
    induction n with
    | zero => exact ⟨by decide, by decide, rfl⟩
    | succ m ih =>
        obtain ⟨h1, h2, h3⟩ := ih
        obtain ⟨e1, e2, e3⟩ := openModal_false_fields _ h3
        rw [Function.iterate_succ_apply']
        refine ⟨?_, ?_, e3⟩
        · rw [e1, classTokens_append_modal_open, List.count_append, h1]; rfl
        · rw [e2, classTokens_append_modal_open, List.count_append, h2]; rfl

theorem claim_C2_witness :
    openModal stOpenTrue = stOpenTrue ∧
    (classTokens (openModal^[2]
      (mkModal modernStyle none)).overlayClassName).count "modal-open" = 2 :=
  ⟨claim_C2.1 stOpenTrue rfl, (claim_C2.2 2).1⟩

/-- A `Modal` constructed with `{avoidClose: false}`. -/
def stAvoidFalse : ModalState := mkModal modernStyle (some [("avoidClose", Value.bool false)])

/-- A `Modal` constructed with `{avoidClose: true}`. -/
def stAvoidTrue : ModalState := mkModal modernStyle (some [("avoidClose", Value.bool true)])

/-- Claim C6: constructing with `{avoidClose: false}` creates no close
button and registers no escape-key (or click) listener, so key presses have
no effect; `close()` remains invokable and — reading only the flag and the
class lists, which coincide between the two constructions — behaves
identically to the `{avoidClose: true}` modal. -/
theorem claim_C6 :
    stAvoidFalse.closeButton = false ∧
    stAvoidFalse.escListener = false ∧
    stAvoidFalse.closeClickListener = false ∧
    (∀ keyCode : Nat, keydown stAvoidFalse keyCode = stAvoidFalse) ∧
    (∀ stF stT : ModalState, stF.isOpen = stT.isOpen →
        stF.overlayClassName = stT.overlayClassName → stF.modalClassName = stT.modalClassName →
        (close stF).isOpen = (close stT).isOpen ∧
        (close stF).overlayClassName = (close stT).overlayClassName ∧
        (close stF).modalClassName = (close stT).modalClassName) ∧
    stAvoidFalse.isOpen = stAvoidTrue.isOpen ∧
    stAvoidFalse.overlayClassName = stAvoidTrue.overlayClassName ∧
    stAvoidFalse.modalClassName = stAvoidTrue.modalClassName := by
  refine ⟨by decide, by decide, by decide, ?_, ?_, by decide, by decide, by decide⟩
  · intro keyCode
    have h : stAvoidFalse.escListener = false := by decide
    simp [keydown, h]
  · intro stF stT h1 h2 h3
    cases ho : stT.isOpen <;> simp [close, h1, h2, h3, ho]

theorem claim_C6_witness :
    (close (openModal stAvoidFalse)).overlayClassName =
      (close (openModal stAvoidTrue)).overlayClassName ∧
    keydown stAvoidFalse 27 = stAvoidFalse :=
  ⟨(claim_C6.2.2.2.2.1 (openModal stAvoidFalse) (openModal stAvoidTrue)
      (by decide) (by decide) (by decide)).2.1,
    claim_C6.2.2.2.1 27⟩

/-- Claim C1: a processed transition-completion signal infers its direction
from the prior `_isOpen` flag: if the flag was false, the open channel is
fired exactly when it exists and the flag becomes true (attachment
untouched); if the flag was true and the handler returns normally, the
close channel is fired exactly when it exists, both overlay and dialog end
up detached from the document, and the flag becomes false. -/
theorem claim_C1 (st : ModalState) (hA : st.transitionListenerAttached = true) :
    (st.isOpen = false →
      ∃ st1, dispatchTransitionend st = some st1 ∧
        st1.isOpen = true ∧
        st1.openFires = st.openFires + (if st.modalOpenChan.isSome then 1 else 0) ∧
        st1.closeFires = st.closeFires ∧
        st1.overlayAttached = st.overlayAttached ∧
        st1.modalAttached = st.modalAttached) ∧
    (st.isOpen = true → ∀ st1, dispatchTransitionend st = some st1 →
        st1.isOpen = false ∧
        st1.closeFires = st.closeFires + (if st.modalCloseChan.isSome then 1 else 0) ∧
        st1.openFires = st.openFires ∧
        st1.overlayAttached = false ∧
        st1.modalAttached = false) := by
  constructor
  · intro h
    cases hc : st.modalOpenChan <;>
      simp [dispatchTransitionend, hA, toggleTransitionend, h, onModalOpen, hc]
  · intro h st1 heq
    cases ho : st.overlayAttached <;> cases hm : st.modalAttached <;>
      cases hc : st.modalCloseChan <;>
      simp [dispatchTransitionend, hA, toggleTransitionend, h, onModalClose,
        removeFromDom, ho, hm, hc] at heq <;>
      subst heq <;> simp [hc]

theorem claim_C1_witness :
    ∃ st1, dispatchTransitionend openReadyState = some st1 ∧
      st1.isOpen = true ∧
      st1.openFires = openReadyState.openFires +
        (if openReadyState.modalOpenChan.isSome then 1 else 0) ∧
      st1.closeFires = openReadyState.closeFires ∧
      st1.overlayAttached = openReadyState.overlayAttached ∧
      st1.modalAttached = openReadyState.modalAttached :=
  (claim_C1 openReadyState rfl).1 rfl

theorem runEvents_signals_detached (st : ModalState)
    (h : st.transitionListenerAttached = false) :
    ∀ evs : List EvInput, (∀ e ∈ evs, e = EvInput.signal) → runEvents st evs = some st := by
  intro evs
  induction evs with
  | nil => intro _; rfl
  | cons e rest ih =>
      intro hall
      have he : e = EvInput.signal := hall e (by simp)
      subst he
      have hstep : step st EvInput.signal = some st := by
        simp [step, dispatchTransitionend, h]
      have hrest := ih (fun e he' => hall e (List.mem_cons_of_mem _ he'))
      simpa [runEvents, List.foldlM_cons, hstep] using hrest

/-- Claim C3: processing a completion signal detaches the listener before
the state transition and schedules its re-attachment only after the fixed
50ms delay; hence for a whole burst of completion signals with no timer
firing in between, only the first is processed: the corresponding channel
fires exactly once and exactly one state flip happens. -/
theorem claim_C3 (st : ModalState) (evs : List EvInput)
    (hA : st.transitionListenerAttached = true)
    (hall : ∀ e ∈ evs, e = EvInput.signal) :
    reattachDelayMs = 50 ∧
    (st.isOpen = false →
      ∃ st1, runEvents st (EvInput.signal :: evs) = some st1 ∧
        st1.openFires = st.openFires + (if st.modalOpenChan.isSome then 1 else 0) ∧
        st1.closeFires = st.closeFires ∧
        st1.isOpen = true ∧
        st1.transitionListenerAttached = false ∧
        st1.pendingReattach = some reattachDelayMs) ∧
    (st.isOpen = true → st.overlayAttached = true → st.modalAttached = true →
      ∃ st1, runEvents st (EvInput.signal :: evs) = some st1 ∧
        st1.closeFires = st.closeFires + (if st.modalCloseChan.isSome then 1 else 0) ∧
        st1.openFires = st.openFires ∧
        st1.isOpen = false ∧
        st1.transitionListenerAttached = false ∧
        st1.pendingReattach = some reattachDelayMs) := by
  refine ⟨rfl, ?_, ?_⟩
  · intro h
    have hstep : ∃ stc, step st EvInput.signal = some stc ∧
        stc.openFires = st.openFires + (if st.modalOpenChan.isSome then 1 else 0) ∧
        stc.closeFires = st.closeFires ∧
        stc.isOpen = true ∧
        stc.transitionListenerAttached = false ∧
        stc.pendingReattach = some reattachDelayMs := by
      cases hc : st.modalOpenChan <;>
        simp [step, dispatchTransitionend, hA, toggleTransitionend, h, onModalOpen, hc]
    obtain ⟨stc, hstep, hf1, hf2, hf3, hlf, hpr⟩ := hstep
    have hrest := runEvents_signals_detached stc hlf evs hall
    exact ⟨stc, by simpa [runEvents, List.foldlM_cons, hstep] using hrest,
      hf1, hf2, hf3, hlf, hpr⟩
  · intro h hov hmo
    have hstep : ∃ stc, step st EvInput.signal = some stc ∧
        stc.closeFires = st.closeFires + (if st.modalCloseChan.isSome then 1 else 0) ∧
        stc.openFires = st.openFires ∧
        stc.isOpen = false ∧
        stc.transitionListenerAttached = false ∧
        stc.pendingReattach = some reattachDelayMs := by
      cases hc : st.modalCloseChan <;>
        simp [step, dispatchTransitionend, hA, toggleTransitionend, h, onModalClose,
          removeFromDom, hov, hmo, hc]
    obtain ⟨stc, hstep, hf1, hf2, hf3, hlf, hpr⟩ := hstep
    have hrest := runEvents_signals_detached stc hlf evs hall
    exact ⟨stc, by simpa [runEvents, List.foldlM_cons, hstep] using hrest,
      hf1, hf2, hf3, hlf, hpr⟩

theorem claim_C3_witness :
    reattachDelayMs = 50 ∧
    ∃ st1, runEvents openReadyState (EvInput.signal :: [EvInput.signal]) = some st1 ∧
      st1.openFires = openReadyState.openFires +
        (if openReadyState.modalOpenChan.isSome then 1 else 0) ∧
      st1.closeFires = openReadyState.closeFires ∧
      st1.isOpen = true ∧
      st1.transitionListenerAttached = false ∧
      st1.pendingReattach = some reattachDelayMs :=
  ⟨(claim_C3 openReadyState [EvInput.signal] rfl (by decide)).1,
    (claim_C3 openReadyState [EvInput.signal] rfl (by decide)).2.1 rfl⟩

/-- Claim C9: the close-completion path dereferences the parents of overlay
and modal without a null check, so it is exception-free exactly under the
precondition that both elements are attached; a completion signal processed
while `_isOpen` is true but the elements were never attached reaches the
null dereference (modelled as `none`), and the state is reachable by two
spurious completion signals separated by the re-arm timer. -/
theorem claim_C9 :
    (∀ st : ModalState, st.overlayAttached = true → st.modalAttached = true →
        (removeFromDom st).isSome = true ∧ (onModalClose st).isSome = true) ∧
    (∀ st : ModalState, st.transitionListenerAttached = true → st.isOpen = true →
        st.overlayAttached = false → dispatchTransitionend st = none) ∧
    runEvents (mkModal modernStyle none)
      [EvInput.signal, EvInput.timerFire, EvInput.signal] = none := by
  refine ⟨?_, ?_, by decide⟩
  · intro st h1 h2
    cases hc : st.modalCloseChan <;> simp [removeFromDom, onModalClose, h1, h2, hc]
  · intro st hA h ho
    cases hc : st.modalCloseChan <;>
      simp [dispatchTransitionend, hA, toggleTransitionend, h, onModalClose,
        removeFromDom, ho, hc]

theorem claim_C9_witness :
    (removeFromDom (openModal (mkModal modernStyle none))).isSome = true ∧
    dispatchTransitionend stOpenTrue = none :=
  ⟨(claim_C9.1 (openModal (mkModal modernStyle none)) rfl rfl).1,
    claim_C9.2.1 stOpenTrue rfl rfl rfl⟩

end PLModal
